import Mathlib

/-!
Verification of the MultiView rig-calibrator core against its specification.

The development shallowly embeds the relevant functions of
src/tools/rig_calibrator.cc and src/rig_calibrator/src/interest_point.cc:
doubles become real numbers (rationals where only order and equality are
used), Eigen affine transforms become a 3x3 real matrix plus a translation
vector, LOG(FATAL) becomes Except.error, and external collaborators
(openMVG triangulation, the camera-model conversions, Eigen SVD and
quaternion conversions, the Ceres solver) enter as function parameters.
-/

namespace RigCal

open Matrix

/-- Three-vector of doubles. -/
abbrev V3 := Fin 3 → ℝ

/-- Three-by-three real matrix. -/
abbrev M3 := Matrix (Fin 3) (Fin 3) ℝ

/-- An Eigen::Affine3d: linear part plus translation. -/
structure Affine3 where
  linear : M3
  translation : V3

/-- Composition of affine transforms, as in Eigen: (A*B) x = A (B x). -/
def affMul (A B : Affine3) : Affine3 :=
  ⟨A.linear * B.linear, A.linear.mulVec B.translation + A.translation⟩

/-- The identity affine transform. -/
def affId : Affine3 := ⟨1, 0⟩

/-! ### Pose interpolation (claim C4)

dense_map::calc_world_to_cam_trans, src/tools/rig_calibrator.cc lines
341-380.  The transforms are taken at the Affine3d level (the
array_to_rigid_transform unpacking of the 7-scalar blocks is elided) and
the pose interpolator dense_map::linearInterp, which lives outside src/,
is a parameter.  LOG(FATAL) is modelled as Except.error. -/

open scoped Classical in
/-- Shallow embedding of dense_map::calc_world_to_cam_trans. -/
noncomputable def calc_world_to_cam_trans
    (linearInterp : ℝ → Affine3 → Affine3 → Affine3)
    (beg_world_to_ref_t end_world_to_ref_t ref_to_cam_trans : Affine3)
    (beg_ref_stamp end_ref_stamp ref_to_cam_offset cam_stamp : ℝ) :
    Except Unit Affine3 :=
  if beg_ref_stamp = end_ref_stamp then
    Except.ok beg_world_to_ref_t
  else
    let alpha := ((cam_stamp - beg_ref_stamp) - ref_to_cam_offset)
      / (end_ref_stamp - beg_ref_stamp)
    if alpha < 0 ∨ alpha > 1 then Except.error ()
    else Except.ok (affMul ref_to_cam_trans
      (linearInterp alpha beg_world_to_ref_t end_world_to_ref_t))

/-! ### Depth lookup (claim C5)

dense_map::depthValue, src/tools/rig_calibrator.cc lines 782-809.  The
cloud is a rows x cols grid of 3-vectors of floats (floats are modelled
as rationals); the pixel enters by its already-rounded coordinates,
exactly the values the source computes with round() before any test. -/

/-- One stored depth-cloud value. -/
abbrev DepthXYZ := ℚ × ℚ × ℚ

/-- Shallow embedding of dense_map::depthValue.  The returned Bool is the
C++ return value and the vector is the depth_xyz output parameter;
LOG(FATAL) is Except.error. -/
def depthValue (rows cols : ℤ) (depth_cloud : ℤ → ℤ → DepthXYZ) (col row : ℤ) :
    Except Unit (Bool × DepthXYZ) :=
  if cols = 0 ∧ rows = 0 then Except.ok (false, (0, 0, 0))
  else if col < 0 ∨ row < 0 ∨ col > cols ∨ row > rows then Except.error ()
  else if col = cols ∨ row = rows then Except.ok (false, (0, 0, 0))
  else if depth_cloud row col = (0, 0, 0) then Except.ok (false, (0, 0, 0))
  else Except.ok (true, depth_cloud row col)

/-! ### Parameter validation and driver start-up (claim C8)

dense_map::parameterValidation, src/tools/rig_calibrator.cc lines 968-1034
(the HAVE_ASTROBEE = 0 configuration compiled in this repository), and the
order of operations at the top of main (lines 2171-2498). -/

/-- The command-line flags read by parameterValidation.  Double-valued
flags are modelled as rationals since only comparisons are performed. -/
structure Flags where
  robust_threshold : ℚ
  bracket_len : ℚ
  num_overlaps : ℤ
  timestamp_offsets_max_change : ℚ
  refiner_min_angle : ℚ
  depth_tri_weight : ℚ
  mesh_tri_weight : ℚ
  depth_mesh_weight : ℚ
  nav_cam_num_exclude_boundary_pixels : ℤ
  registration : Bool
  xyz_file : String
  hugin_file : String
  float_scale : Bool
  affine_depth_to_image : Bool
  float_nonref_cameras : Bool
  no_extrinsics : Bool
  float_timestamp_offsets : Bool
  save_images_and_depth_clouds : Bool
  save_matches : Bool
  out_dir : String
  rig_config : String
  image_list : String

/-- One fatal check: LOG(FATAL) with the given message when the condition
holds, otherwise fall through. -/
def failIf (c : Prop) [Decidable c] (msg : String) : Except String Unit :=
  if c then Except.error msg else Except.ok ()

/-- Shallow embedding of dense_map::parameterValidation: the sequence of
fatal checks, in source order. -/
def parameterValidation (f : Flags) : Except String Unit := do
  failIf (f.robust_threshold ≤ 0) "robust threshold must be positive"
  failIf (f.bracket_len ≤ 0) "bracket length must be positive"
  failIf (f.num_overlaps < 1) "number of overlaps must be positive"
  failIf (f.timestamp_offsets_max_change < 0) "timestamp offsets must be non-negative"
  failIf (f.refiner_min_angle ≤ 0) "min triangulation angle must be positive"
  failIf (f.depth_tri_weight < 0) "depth weight must be non-negative"
  failIf (f.mesh_tri_weight < 0) "mesh weight must be non-negative"
  failIf (f.depth_mesh_weight < 0) "depth mesh weight must be non-negative"
  failIf (f.nav_cam_num_exclude_boundary_pixels < 0)
    "boundary exclusion distance must be non-negative"
  failIf (f.registration ∧ (f.xyz_file = "" ∨ f.hugin_file = ""))
    "registration needs the hugin and xyz files"
  failIf (f.float_scale ∧ f.affine_depth_to_image)
    "float_scale and affine_depth_to_image should not be used together"
  failIf (f.float_nonref_cameras ∧ ¬ f.no_extrinsics)
    "float_nonref_cameras must be used only with no_extrinsics"
  failIf (f.no_extrinsics ∧ f.float_timestamp_offsets)
    "cannot float timestamps with no_extrinsics"
  failIf (f.save_images_and_depth_clouds ∧ f.out_dir = "")
    "cannot save images and clouds without an output directory"
  failIf (f.save_matches ∧ f.out_dir = "")
    "cannot save matches without an output directory"
  failIf (f.rig_config = "") "must specify the rig configuration"
  failIf (f.image_list = "") "must specify the image list"

/-- The units of work main performs after validation, in program order. -/
inductive MainStep
  | readRigConfig
  | readImageData
  | lookupImagesAndBrackets
  | detectMatchFeatures
  | optimizationPasses
deriving DecidableEq

/-- Start-up order of main: dense_map::parameterValidation is invoked at
line 2182, before the rig configuration is read (2196), images are read
(2270), brackets are looked up (2388), features are matched (2466) and the
optimization passes run (2498).  A validation failure exits before any of
those steps. -/
def mainStartup (f : Flags) : Except String (List MainStep) :=
  match parameterValidation f with
  | Except.error e => Except.error e
  | Except.ok _ => Except.ok
      [MainStep.readRigConfig, MainStep.readImageData, MainStep.lookupImagesAndBrackets,
       MainStep.detectMatchFeatures, MainStep.optimizationPasses]

/-! ### Per-pass intrinsics copy-back (claim C7)

Lines 2826-2839 of src/tools/rig_calibrator.cc, executed after every
solver invocation. -/

/-- Camera intrinsics as held in camera::CameraParameters (an external
class; only the fields the driver touches are modelled). -/
structure CamParams where
  focalLength : ℝ × ℝ
  opticalOffset : ℝ × ℝ
  distortion : List ℝ

/-- Shallow embedding of the per-pass intrinsics copy-back in main: the
optimized scalars (one shared focal length, optical center, distortion)
are copied into cam_params for every sensor; then, if the reference-sensor
intrinsics were not named to float or no iterations were requested, the
reference entry is restored from the pre-optimization snapshot
orig_cam_params. -/
def copyBackIntrinsics (ref_cam_type : ℕ) (orig_cam_params : ℕ → CamParams)
    (focal_lengths : ℕ → ℝ) (optical_centers : ℕ → ℝ × ℝ) (distortions : ℕ → List ℝ)
    (nav_cam_intrinsics_to_float : String) (num_iterations : ℤ) : ℕ → CamParams :=
  let updated : ℕ → CamParams := fun it =>
    { focalLength := (focal_lengths it, focal_lengths it),
      opticalOffset := optical_centers it,
      distortion := distortions it }
  if nav_cam_intrinsics_to_float = "" ∨ num_iterations = 0 then
    fun it => if it = ref_cam_type then orig_cam_params ref_cam_type else updated it
  else updated

/-! ### Tracks and the inlier mask (claims C1, C3, C6, C10)

The C++ stores tracks as std::map from cid to fid and the inlier mask as
nested maps pid to cid to fid to int; tracks become association lists and
the mask a total function (getMapValue and setMapValue abort on missing
keys in C++; the total-function model elides that domain bookkeeping). -/

/-- A track: the (cid, fid) observations of one landmark. -/
abbrev Track := List (ℕ × ℕ)

/-- The three-level inlier mask pid_cid_fid_inlier. -/
abbrev Mask := ℕ → ℕ → ℕ → ℕ

/-- dense_map::getMapValue specialised to the inlier mask. -/
def getMapValue (m : Mask) (pid cid fid : ℕ) : ℕ := m pid cid fid

/-- dense_map::setMapValue: update one mask entry. -/
def setMapValue (m : Mask) (pid cid fid v : ℕ) : Mask :=
  fun p c f => if p = pid ∧ c = cid ∧ f = fid then v else m p c f

/-- A double that may be NaN or infinite: none models a non-finite value. -/
abbrev EDouble := Option ℝ

/-- A triangulated 3-vector whose coordinates may be NaN or infinite. -/
abbrev EV3 := Fin 3 → EDouble

/-- The per-coordinate isnan-or-isinf loop of the interest_point.cc copy of
multiViewTriangulation (lines 704-708). -/
def badXyz (v : EV3) : Bool := (v 0).isNone || (v 1).isNone || (v 2).isNone

/-- Everything multiViewTriangulation reads besides the tracks and the
mask.  The camera-model conversion (camera::CameraParameters) and the DLT
solver dense_map::Triangulate (backed by openMVG) are external
collaborators and enter as function parameters; poses, focal lengths,
camera types and the keypoint table are data. -/
structure TriCtx where
  camType : ℕ → ℕ
  focalLength : ℕ → ℝ
  undistort : ℕ → ℝ × ℝ → ℝ × ℝ
  worldToCam : ℕ → Affine3
  keypoint : ℕ → ℕ → ℝ × ℝ
  triangulate : List (ℝ × Affine3 × (ℝ × ℝ)) → EV3

/-- The per-track ray assembly shared by both multiViewTriangulation
copies: keep inlier observations only, undistort the keypoint, and pair
it with the focal length and pose of its camera (interest_point.cc lines
664-685 and rig_calibrator.cc lines 1367-1388). -/
def trackRays (ctx : TriCtx) (mask : Mask) (pid : ℕ) (track : Track) :
    List (ℝ × Affine3 × (ℝ × ℝ)) :=
  (track.filter (fun cf => getMapValue mask pid cf.1 cf.2 != 0)).map
    (fun cf => (ctx.focalLength (ctx.camType cf.1), ctx.worldToCam cf.1,
                ctx.undistort (ctx.camType cf.1) (ctx.keypoint cf.1 cf.2)))

/-- Flag every observation of a track as outlier (the zeroing loops of
both multiViewTriangulation copies). -/
def setTrackOutliers (mask : Mask) (pid : ℕ) (track : Track) : Mask :=
  track.foldl (fun m cf => setMapValue m pid cf.1 cf.2 0) mask

/-- Shallow embedding of dense_map::multiViewTriangulation as defined in
the optimization driver translation unit (src/tools/rig_calibrator.cc
lines 1356-1409).  A track with fewer than two inlier rays is fully
flagged as outlier; otherwise the triangulated point is stored with no
check of the result.  For a skipped track the xyz entry is left
uninitialized, modelled as the all-non-finite vector. -/
def multiViewTriangulationTools (ctx : TriCtx) (tracks : List Track) (mask : Mask) :
    Mask × List EV3 :=
  tracks.enum.foldl
    (fun (st : Mask × List EV3) pt =>
      let rays := trackRays ctx st.1 pt.1 pt.2
      if rays.length < 2 then (setTrackOutliers st.1 pt.1 pt.2, st.2 ++ [fun _ => none])
      else (st.1, st.2 ++ [ctx.triangulate rays]))
    (mask, [])

/-- Shallow embedding of dense_map::multiViewTriangulation as defined in
src/rig_calibrator/src/interest_point.cc lines 649-722: identical to the
driver copy except that after triangulating it checks the result for NaN
or Inf coordinates and, in that case, flags the whole track as outlier. -/
def multiViewTriangulationIP (ctx : TriCtx) (tracks : List Track) (mask : Mask) :
    Mask × List EV3 :=
  tracks.enum.foldl
    (fun (st : Mask × List EV3) pt =>
      let rays := trackRays ctx st.1 pt.1 pt.2
      if rays.length < 2 then (setTrackOutliers st.1 pt.1 pt.2, st.2 ++ [fun _ => none])
      else
        let xyz := ctx.triangulate rays
        if badXyz xyz then (setTrackOutliers st.1 pt.1 pt.2, st.2 ++ [xyz])
        else (st.1, st.2 ++ [xyz]))
    (mask, [])

/-! ### The outlier flagger (claims C3, C6) -/

/-- Euclidean norm of a 3-vector. -/
noncomputable def norm3 (v : V3) : ℝ := Real.sqrt (v 0 ^ 2 + v 1 ^ 2 + v 2 ^ 2)

/-- Dot product of 3-vectors. -/
def dot3 (u v : V3) : ℝ := u 0 * v 0 + u 1 * v 1 + u 2 * v 2

/-- Eigen normalize(): divide by the Euclidean norm. -/
noncomputable def normalize3 (v : V3) : V3 := fun i => v i / norm3 v

/-- Camera centre: world_to_cam.inverse() applied to the origin. -/
noncomputable def camCtr (T : Affine3) : V3 :=
  T.linear⁻¹.mulVec (0 - T.translation)

/-- A triangulated point with all coordinates finite, when there is one. -/
def finiteV3 (v : EV3) : Option V3 :=
  match v 0, v 1, v 2 with
  | some a, some b, some c => some ![a, b, c]
  | _, _, _ => none

open scoped Classical in
/-- The convergence angle, in degrees, between the rays from two camera
centres to a triangulated point (rig_calibrator.cc lines 1541-1563).
none models the NaN angles that arise from non-finite coordinates or from
normalizing a zero ray; the source skips those in the maximum. -/
noncomputable def pairAngle (worldToCam : ℕ → Affine3) (xyz : EV3) (cid1 cid2 : ℕ) :
    Option ℝ :=
  match finiteV3 xyz with
  | none => none
  | some x =>
    let r1 := fun i => x i - camCtr (worldToCam cid1) i
    let r2 := fun i => x i - camCtr (worldToCam cid2) i
    if norm3 r1 = 0 ∨ norm3 r2 = 0 then none
    else some ((180 / Real.pi) * Real.arccos (dot3 (normalize3 r1) (normalize3 r2)))

/-- The data flagOutliersByTriAngleAndReprojErr reads: thresholds, the
current poses, the current triangulated points, and the pixel residuals
from the solver with their index map. -/
structure FlagCtx where
  refinerMinAngle : ℝ
  maxReprojErr : ℝ
  worldToCam : ℕ → Affine3
  xyzVec : ℕ → EV3
  residualIndex : ℕ → ℕ → ℕ → ℕ
  residuals : List ℝ

open scoped Classical in
/-- The largest convergence angle over ordered pairs of inlier
observations of one track, 0 when there is none (rig_calibrator.cc lines
1528-1567); NaN angles are skipped. -/
noncomputable def trackMaxAngle (fc : FlagCtx) (mask : Mask) (pid : ℕ) (track : Track) : ℝ :=
  track.foldl
    (fun mx cf1 =>
      if getMapValue mask pid cf1.1 cf1.2 = 0 then mx
      else track.foldl
        (fun mx2 cf2 =>
          if cf2.1 ≤ cf1.1 then mx2
          else if getMapValue mask pid cf2.1 cf2.2 = 0 then mx2
          else match pairAngle fc.worldToCam (fc.xyzVec pid) cf1.1 cf2.1 with
            | none => mx2
            | some a => max mx2 a)
        mx)
    0

open scoped Classical in
/-- The angle half of flagOutliersByTriAngleAndReprojErr
(rig_calibrator.cc lines 1526-1584): a track whose maximum convergence
angle stays below refiner_min_angle has all its inlier observations
flagged as outliers. -/
noncomputable def flagByAngle (fc : FlagCtx) (tracks : List Track) (mask : Mask) : Mask :=
  tracks.enum.foldl
    (fun m pt =>
      if trackMaxAngle fc m pt.1 pt.2 ≥ fc.refinerMinAngle then m
      else pt.2.foldl
        (fun m2 cf =>
          if getMapValue m2 pt.1 cf.1 cf.2 = 0 then m2
          else setMapValue m2 pt.1 cf.1 cf.2 0)
        m)
    mask

open scoped Classical in
/-- The reprojection half of flagOutliersByTriAngleAndReprojErr
(rig_calibrator.cc lines 1590-1616): an inlier observation whose pixel
residual norm exceeds max_reprojection_error is flagged as outlier; a
residual index past the end of the residual vector is LOG(FATAL). -/
noncomputable def flagByReproj (fc : FlagCtx) (tracks : List Track) (mask : Mask) :
    Except Unit Mask :=
  tracks.enum.foldlM
    (fun m pt =>
      pt.2.foldlM
        (fun m2 cf =>
          if getMapValue m2 pt.1 cf.1 cf.2 = 0 then pure m2
          else
            let ridx := fc.residualIndex pt.1 cf.1 cf.2
            if fc.residuals.length ≤ ridx + 1 then Except.error ()
            else
              let rx := fc.residuals.getD ridx 0
              let ry := fc.residuals.getD (ridx + 1) 0
              if Real.sqrt (rx ^ 2 + ry ^ 2) ≤ fc.maxReprojErr then pure m2
              else pure (setMapValue m2 pt.1 cf.1 cf.2 0))
        m)
    mask

/-- Shallow embedding of dense_map::flagOutliersByTriAngleAndReprojErr
(src/tools/rig_calibrator.cc lines 1514-1623): the angle filter runs
first, the reprojection filter second. -/
noncomputable def flagOutliersByTriAngleAndReprojErr (fc : FlagCtx) (tracks : List Track)
    (mask : Mask) : Except Unit Mask :=
  flagByReproj fc tracks (flagByAngle fc tracks mask)

open scoped Classical in
/-- Shallow embedding of dense_map::flagOutlierByExclusionDist
(src/tools/rig_calibrator.cc lines 1472-1508): every observation of every
track is first marked inlier, then reference-sensor pixels within the
exclusion distance of an image edge are flagged as outliers.  This runs
once, before the optimization passes, and initializes the mask. -/
noncomputable def flagOutlierByExclusionDist (ref_cam_type : ℕ) (excl : ℤ)
    (camType : ℕ → ℕ) (distSize : ℕ → ℤ × ℤ) (keypoint : ℕ → ℕ → ℝ × ℝ)
    (tracks : List Track) (base : Mask) : Mask :=
  tracks.enum.foldl
    (fun m pt =>
      pt.2.foldl
        (fun m2 cf =>
          let m3 := setMapValue m2 pt.1 cf.1 cf.2 1
          if camType cf.1 = ref_cam_type then
            let ip := keypoint cf.1 cf.2
            let sz := distSize (camType cf.1)
            if ip.1 < (excl : ℝ) ∨ ip.1 > ((sz.1 : ℝ) - 1 - (excl : ℝ))
                ∨ ip.2 < (excl : ℝ) ∨ ip.2 > ((sz.2 : ℝ) - 1 - (excl : ℝ)) then
              setMapValue m3 pt.1 cf.1 cf.2 0
            else m3
          else m3)
        m)
    base

/-! ### The optimization driver loop (claims C3, C6)

The pass loop of main, src/tools/rig_calibrator.cc lines 2498-2875. -/

/-- What the Ceres solve of one pass hands back to the outlier flagger:
updated poses, the residual index map built while assembling the problem,
and the evaluated residuals.  The solver itself is external. -/
structure SolveOut where
  worldToCam : ℕ → Affine3
  residualIndex : ℕ → ℕ → ℕ → ℕ
  residuals : List ℝ

/-- The per-pass inputs: the triangulation context for the pass and the
external solve as a function of the inlier set. -/
structure PassCtx where
  tri : TriCtx
  solve : Mask → SolveOut

/-- One optimization pass as far as the inlier mask is concerned
(lines 2498-2875): re-triangulate with the driver copy of
multiViewTriangulation, solve, then run flagOutliersByTriAngleAndReprojErr
on the solver residuals and the triangulated points. -/
noncomputable def driverPass (minAngle maxErr : ℝ) (pc : PassCtx) (tracks : List Track)
    (mask : Mask) : Except Unit Mask :=
  let t := multiViewTriangulationTools pc.tri tracks mask
  let so := pc.solve t.1
  flagOutliersByTriAngleAndReprojErr
    { refinerMinAngle := minAngle, maxReprojErr := maxErr,
      worldToCam := so.worldToCam,
      xyzVec := fun pid => t.2.getD pid (fun _ => none),
      residualIndex := so.residualIndex, residuals := so.residuals }
    tracks t.1

/-- The driver pass loop: n passes in order. -/
noncomputable def runPasses (minAngle maxErr : ℝ) (pd : ℕ → PassCtx) (tracks : List Track) :
    ℕ → Mask → Except Unit Mask
  | 0, m => Except.ok m
  | n + 1, m =>
      runPasses minAngle maxErr pd tracks n m >>= driverPass minAngle maxErr (pd n) tracks

/-- Pointwise order on masks: m1 is everywhere at most m2. -/
def maskLE (m1 m2 : Mask) : Prop := ∀ p c f, m1 p c f ≤ m2 p c f

/-! ### The driver event trace (claim C6) -/

/-- The outlier-handling events of the optimization driver.
flagOutlierByExclusionDist is called at line 2487, before the pass loop;
within each pass multiViewTriangulation is called at 2512, ceres::Solve at
2799 and flagOutliersByTriAngleAndReprojErr at 2870. -/
inductive DriverEvent
  | exclusionFilter
  | triangulationStep (p : ℕ)
  | solveStep (p : ℕ)
  | angleReprojFilter (p : ℕ)
deriving DecidableEq

/-- The events of one optimization pass, in order. -/
def passEvents (p : ℕ) : List DriverEvent :=
  [DriverEvent.triangulationStep p, DriverEvent.solveStep p, DriverEvent.angleReprojFilter p]

/-- The full event order of main for a given number of passes: the
boundary-exclusion filter once, then the passes. -/
def driverEventTrace (numPasses : ℕ) : List DriverEvent :=
  DriverEvent.exclusionFilter :: (List.range numPasses).flatMap passEvents

/-! ### writeNvm track selection (claim C10)

dense_map::writeNvm, src/rig_calibrator/src/interest_point.cc lines
1333-1405.  Only the track-selection and re-indexing logic is relevant to
the claim. -/

/-- Insertion into a std::map from int to int: overwrite the value when
the key is present, append otherwise. -/
def mapInsert (l : List (ℕ × ℕ)) (k v : ℕ) : List (ℕ × ℕ) :=
  if l.any (fun p => p.1 == k) then l.map (fun p => if p.1 = k then (k, v) else p)
  else l ++ [(k, v)]

/-- The per-track loop of writeNvm (lines 1372-1390): keep inlier
observations, re-index each by the running per-cid keypoint counter
fid_count, and return the new track map together with the updated
counters. -/
def writeNvmTrack (mask : Mask) (pid : ℕ) (track : Track) (fidCount : ℕ → ℕ) :
    List (ℕ × ℕ) × (ℕ → ℕ) :=
  track.foldl
    (fun acc cf =>
      if getMapValue mask pid cf.1 cf.2 = 0 then acc
      else (mapInsert acc.1 cf.1 (acc.2 cf.1),
            fun c => if c = cf.1 then acc.2 cf.1 + 1 else acc.2 c))
    ([], fidCount)

/-- The track-selection half of dense_map::writeNvm (lines 1363-1397):
each track is reduced to its re-indexed inlier observations and enters
the output, together with its triangulated point, only if the resulting
map has size strictly greater than two. -/
def writeNvmFilter (tracks : List Track) (xyzs : List V3) (mask : Mask) :
    List (List (ℕ × ℕ) × V3) :=
  ((tracks.zip xyzs).foldl
    (fun (st : (ℕ → ℕ) × ℕ × List (List (ℕ × ℕ) × V3)) txy =>
      let r := writeNvmTrack mask st.2.1 txy.1 st.1
      (r.2, st.2.1 + 1,
        if 2 < r.1.length then st.2.2 ++ [(r.1, txy.2)] else st.2.2))
    (fun _ => 0, 0, [])).2.2

/-- Specification-side count of the inlier observations of a track, in
the claim's words: the number of observations whose mask entry is 1. -/
def inlierObsCount (mask : Mask) (pid : ℕ) (track : Track) : ℕ :=
  (track.filter (fun cf => getMapValue mask pid cf.1 cf.2 != 0)).length

/-- Specification-side selection, in the claim's words: the triangulated
points of exactly those tracks whose inlier-observation count is strictly
greater than two, in order. -/
def specKeptXyz (tracks : List Track) (xyzs : List V3) (mask : Mask) : List V3 :=
  ((tracks.zip xyzs).enum.filter
    (fun e => 2 < inlierObsCount mask e.1 e.2.1)).map (fun e => e.2.2)

/-! ### NVM persistence (claim C9)

dense_map::WriteNVM (interest_point.cc lines 1407-1475) and
dense_map::ReadNVM (lines 1247-1329).  The decimal text stream is
modelled as structured records, so text formatting and parsing of numbers
is exact; Eigen's rotation-to-quaternion and quaternion-to-rotation
conversions are external collaborators passed as parameters. -/

/-- One camera line of an NVM file: filename, focal length, world-to-cam
rotation quaternion, camera centre, and the two ignored distortion
values. -/
structure NvmCam where
  name : String
  focal : ℝ
  q : Fin 4 → ℝ
  center : V3
  d1 : ℝ
  d2 : ℝ

/-- One point block of an NVM file: position, color, and the measures,
each a cid, fid and pixel pair. -/
structure NvmPoint where
  xyz : V3
  rgb : Fin 3 → ℕ
  obs : List (ℕ × ℕ × (ℝ × ℝ))

/-- The contents of an NVM file after the NVM_V3 header. -/
structure NvmFileData where
  cams : List NvmCam
  pts : List NvmPoint

/-- Shallow embedding of dense_map::WriteNVM.  toQuat is Eigen's
rotation-to-quaternion conversion; the written camera centre is minus
rotation().inverse() times the translation; distortion is written as two
zeros; the CHECK that sizes agree and that every track has more than one
measurement is Except.error.  Camera name, focal length and pose arrive
fused in one list, which makes the remaining two size CHECKs vacuous. -/
noncomputable def WriteNVM (toQuat : M3 → Fin 4 → ℝ)
    (cid_to_keypoint_map : ℕ → ℕ → ℝ × ℝ)
    (cams : List (String × ℝ × Affine3))
    (pid_to_cid_fid : List Track) (pid_to_xyz : List V3) :
    Except Unit NvmFileData :=
  if pid_to_cid_fid.length ≠ pid_to_xyz.length then Except.error ()
  else if pid_to_cid_fid.any (fun t => t.length ≤ 1) then Except.error ()
  else Except.ok
    { cams := cams.map (fun c =>
        { name := c.1, focal := c.2.1,
          q := toQuat c.2.2.linear,
          center := -(c.2.2.linear⁻¹.mulVec c.2.2.translation),
          d1 := 0, d2 := 0 }),
      pts := (pid_to_cid_fid.zip pid_to_xyz).map (fun tx =>
        { xyz := tx.2, rgb := fun _ => 0,
          obs := tx.1.map (fun cf => (cf.1, cf.2, cid_to_keypoint_map cf.1 cf.2)) }) }

/-- The outputs of ReadNVM. -/
structure NvmRead where
  cid_to_keypoint_map : ℕ → ℕ → ℝ × ℝ
  cid_to_filename : List String
  pid_to_cid_fid : List (List (ℕ × ℕ))
  pid_to_xyz : List V3
  cid_to_cam_t_global : List Affine3

/-- Writing one measurement into the keypoint table at its cid and fid
(the conservativeResize-and-assign at interest_point.cc lines 1320-1323). -/
def kpStore (kp : ℕ → ℕ → ℝ × ℝ) (o : ℕ × ℕ × (ℝ × ℝ)) : ℕ → ℕ → ℝ × ℝ :=
  fun c f => if c = o.1 ∧ f = o.2.1 then o.2.2 else kp c f

/-- Shallow embedding of dense_map::ReadNVM over the structured records.
quatToMat is Eigen's quaternion-to-rotation conversion; the rotation is
its matrix and the translation is minus that matrix times the read
centre.  initKp stands for the unspecified contents of the keypoint
matrices outside the written columns (conservativeResize leaves them
arbitrary); the at() range bookkeeping of the C++ keypoint matrices is
elided by the total-function model.  A file with no cameras or with no
points is fatal. -/
def ReadNVM (quatToMat : (Fin 4 → ℝ) → M3) (initKp : ℕ → ℕ → ℝ × ℝ)
    (file : NvmFileData) : Except Unit NvmRead :=
  if file.cams.length < 1 then Except.error ()
  else if file.pts.length < 1 then Except.error ()
  else Except.ok
    { cid_to_keypoint_map := file.pts.foldl (fun kp p => p.obs.foldl kpStore kp) initKp,
      cid_to_filename := file.cams.map (fun c => c.name),
      pid_to_cid_fid := file.pts.map (fun p =>
        p.obs.foldl (fun acc o => mapInsert acc o.1 o.2.1) []),
      pid_to_xyz := file.pts.map (fun p => p.xyz),
      cid_to_cam_t_global := file.cams.map (fun c =>
        let r := quatToMat c.q
        ⟨r, -(r.mulVec c.center)⟩) }

/-! ### Similarity transform fit (claim C2)

dense_map::Find3DAffineTransform, src/rig_calibrator/src/interest_point.cc
lines 831-887.  The two point sets are 3xN Eigen matrices whose columns
are the points; they are embedded as lists of 3-vectors.  Eigen's
JacobiSVD enters as the function parameter svd returning the pair
(matrixU, matrixV); the code uses nothing else of the decomposition. -/

/-- The sum of distances between consecutive columns (the loop at lines
847-850, for one point set). -/
noncomputable def consecDists (pts : List V3) : ℝ :=
  (pts.zip pts.tail).foldl (fun acc pq => acc + norm3 (fun i => pq.2 i - pq.1 i)) 0

noncomputable def centroid (pts : List V3) : V3 :=
  fun i => (pts.foldl (fun acc p => acc + p i) 0) / (pts.length : ℝ)

noncomputable def centerAt (ctr : V3) (pts : List V3) : List V3 :=
  pts.map (fun p i => p i - ctr i)

noncomputable def scaledOut (outPts : List V3) (s : ℝ) : List V3 :=
  outPts.map (fun p i => p i / s)

noncomputable def covarianceOf (ins outs : List V3) : M3 :=
  (ins.zip outs).foldl (fun acc ab => Matrix.of (fun i j => acc i j + ab.1 i * ab.2 j)) 0

noncomputable def kabschCov (inPts outPts : List V3) (s : ℝ) : M3 :=
  covarianceOf (centerAt (centroid inPts) inPts)
    (centerAt (centroid (scaledOut outPts s)) (scaledOut outPts s))

noncomputable def kabschRot (svd : M3 → M3 × M3) (cov : M3) : M3 :=
  (svd cov).2
    * Matrix.diagonal ![1, 1,
        if 0 < ((svd cov).2 * Matrix.transpose (svd cov).1).det then (1 : ℝ) else -1]
    * Matrix.transpose (svd cov).1

noncomputable def kabschSim (svd : M3 → M3 × M3) (inPts outPts : List V3) (s : ℝ) :
    Affine3 :=
  ⟨s • kabschRot svd (kabschCov inPts outPts s),
   fun i => s * (centroid (scaledOut outPts s) i
     - (kabschRot svd (kabschCov inPts outPts s)).mulVec (centroid inPts) i)⟩

noncomputable def find3DAffineTransform (svd : M3 → M3 × M3)
    (inPts outPts : List V3) : Except String Affine3 :=
  if inPts.length ≠ outPts.length then
    Except.error "Find3DAffineTransform(): input data mis-match"
  else if consecDists inPts ≤ 0 ∨ consecDists outPts ≤ 0 then Except.ok affId
  else Except.ok (kabschSim svd inPts outPts (consecDists outPts / consecDists inPts))

noncomputable def affApply (a : Affine3) (v : V3) : V3 :=
  fun i => a.linear.mulVec v i + a.translation i

def inEx : List V3 := [![0, 0, 0], ![1, 0, 0], ![0, 1, 0], ![0, 0, 1]]

def outEx : List V3 := [![5, 0, 0], ![5, 2, 0], ![3, 0, 0], ![5, 0, 2]]

noncomputable def Rz90 : M3 := !![0, -1, 0; 1, 0, 0; 0, 0, 1]

noncomputable def covEx : M3 := !![1/4, 3/4, -1/4; -3/4, -1/4, -1/4; 1/4, -1/4, 3/4]

noncomputable def Wex : M3 := !![1, 1, 1; -1, 1, 1; 0, -2, 1]

noncomputable def Dex : M3 :=
  Matrix.diagonal ![1 / Real.sqrt 2, 1 / Real.sqrt 6, 1 / Real.sqrt 3]

noncomputable def Uex : M3 := Wex * Dex

noncomputable def Vex : M3 := Rz90 * Uex

noncomputable def svdEx : M3 → M3 × M3 := fun _ => (Uex, Vex)

/-! ### Concrete inputs used by witnesses and counterexamples -/

/-- The all-ones mask. -/
def maskOne : Mask := fun _ _ _ => 1

/-- A triangulation context whose external DLT solver returns an
all-non-finite vector, the triangulation-failure sentinel. -/
def triCtxNan : TriCtx :=
  { camType := fun _ => 0, focalLength := fun _ => 1,
    undistort := fun _ p => p, worldToCam := fun _ => affId,
    keypoint := fun _ _ => (0, 0), triangulate := fun _ => fun _ => none }

/-- A single track observed by cameras 0 and 1. -/
def tracksPair : List Track := [[(0, 0), (1, 0)]]

/-- A trivial external solve result. -/
def solveTrivial : SolveOut :=
  { worldToCam := fun _ => affId, residualIndex := fun _ _ _ => 0, residuals := [] }

/-- A trivial pass context. -/
def passCtxTrivial : PassCtx := { tri := triCtxNan, solve := fun _ => solveTrivial }

/-- Two tracks: one with two observations, one with three. -/
def tracksTwoThree : List Track := [[(0, 0), (1, 0)], [(0, 1), (1, 1), (2, 0)]]

/-- Triangulated points for the two tracks above. -/
def xyzsTwoThree : List V3 := [![0, 0, 0], ![1, 2, 3]]

end RigCal

namespace RigCal

/-! ## Theorems -/

/-- Claim C4: for beg different from end the interpolation parameter is
alpha = ((cam_stamp - beg_ref_stamp) - ref_to_cam_offset) divided by
(end_ref_stamp - beg_ref_stamp); the computation is fatal exactly when
alpha < 0 or alpha > 1; and when the two reference stamps coincide the
result is the begin world-to-reference transform, for every value of the
end transform and of the reference-to-sensor transform. -/
theorem calc_world_to_cam_trans_spec
    (linearInterp : ℝ → Affine3 → Affine3 → Affine3)
    (bt et rc : Affine3) (bs es off cs : ℝ) :
    (bs = es → calc_world_to_cam_trans linearInterp bt et rc bs es off cs = Except.ok bt)
    ∧ (bs ≠ es →
        (calc_world_to_cam_trans linearInterp bt et rc bs es off cs = Except.error ()
          ↔ ((cs - bs) - off) / (es - bs) < 0 ∨ ((cs - bs) - off) / (es - bs) > 1))
    ∧ (bs ≠ es → ¬(((cs - bs) - off) / (es - bs) < 0 ∨ ((cs - bs) - off) / (es - bs) > 1) →
        calc_world_to_cam_trans linearInterp bt et rc bs es off cs
          = Except.ok (affMul rc
              (linearInterp (((cs - bs) - off) / (es - bs)) bt et))) := by
  refine ⟨fun h => ?_, fun h => ?_, fun h hin => ?_⟩
  · simp [calc_world_to_cam_trans, h]
  · by_cases hab : ((cs - bs) - off) / (es - bs) < 0 ∨ ((cs - bs) - off) / (es - bs) > 1
    · simp [calc_world_to_cam_trans, h, hab]
    · simp [calc_world_to_cam_trans, h, hab]
  · simp [calc_world_to_cam_trans, h, hin]

/-- Witness for C4 at a concrete input: stamps 0 and 1, offset 0, camera
stamp one half, so alpha is one half and interpolation succeeds. -/
theorem calc_world_to_cam_trans_spec_witness :
    calc_world_to_cam_trans (fun _ a _ => a) affId affId affId 0 1 0 (1 / 2)
      = Except.ok (affMul affId affId) :=
  (calc_world_to_cam_trans_spec (fun _ a _ => a) affId affId affId 0 1 0 (1 / 2)).2.2
    (by norm_num) (by norm_num)

/-- Claim C5: for a non-empty depth cloud and rounded pixel coordinates
with 0 <= col <= cols and 0 <= row <= rows the lookup never aborts; at
col = cols or row = rows it returns no-depth, as it does at the invalid
sentinel (0,0,0); and it aborts exactly when col or row is negative or
strictly exceeds the corresponding dimension. -/
theorem depthValue_spec (rows cols : ℤ) (depth_cloud : ℤ → ℤ → DepthXYZ) (col row : ℤ)
    (hne : ¬(cols = 0 ∧ rows = 0)) :
    (0 ≤ col → 0 ≤ row → col ≤ cols → row ≤ rows →
        ∃ r, depthValue rows cols depth_cloud col row = Except.ok r)
    ∧ ((col = cols ∨ row = rows) → 0 ≤ col → 0 ≤ row → col ≤ cols → row ≤ rows →
        depthValue rows cols depth_cloud col row = Except.ok (false, (0, 0, 0)))
    ∧ (0 ≤ col → 0 ≤ row → col < cols → row < rows → depth_cloud row col = (0, 0, 0) →
        depthValue rows cols depth_cloud col row = Except.ok (false, (0, 0, 0)))
    ∧ (depthValue rows cols depth_cloud col row = Except.error ()
        ↔ (col < 0 ∨ row < 0 ∨ col > cols ∨ row > rows)) := by
  unfold depthValue
  refine ⟨?_, ?_, ?_, ?_⟩
  · intro h1 h2 h3 h4
    split_ifs with e1 e2 e3
    · exact absurd e1 (by omega)
    · exact ⟨_, rfl⟩
    · exact ⟨_, rfl⟩
    · exact ⟨_, rfl⟩
  · intro hb h1 h2 h3 h4
    split_ifs with e1
    · exact absurd e1 (by omega)
    · rfl
  · intro h1 h2 h3 h4 hz
    split_ifs with e1 e2
    · exact absurd e1 (by omega)
    · rfl
    · rfl
  · constructor
    · intro he
      split_ifs at he with e1
      · exact e1
    · intro hout
      split_ifs
      · trivial

/-- Witness for C5 at a concrete input: a 2 x 3 cloud probed at the
rounded coordinate (3, 1), which equals the column dimension and hence
returns no-depth instead of aborting. -/
theorem depthValue_spec_witness :
    depthValue 2 3 (fun _ _ => (1, 2, 3)) 3 1 = Except.ok (false, (0, 0, 0)) :=
  (depthValue_spec 2 3 (fun _ _ => (1, 2, 3)) 3 1 (by decide)).2.1
    (Or.inl rfl) (by decide) (by decide) (by decide) (by decide)

/-- Helper: a failIf-guarded continuation errors exactly when the guard
fires or the continuation errors. -/
theorem failIf_bind_error (c : Prop) [Decidable c] (msg : String)
    (k : Unit → Except String Unit) :
    (∃ e, (failIf c msg >>= k) = Except.error e)
      ↔ (c ∨ ∃ e, k () = Except.error e) := by
  by_cases h : c
  · simp [failIf, h, Bind.bind, Except.bind]
  · simp [failIf, h, Bind.bind, Except.bind]

/-- Helper: a bare failIf errors exactly when the guard fires. -/
theorem failIf_error (c : Prop) [Decidable c] (msg : String) :
    (∃ e, failIf c msg = Except.error e) ↔ c := by
  by_cases h : c <;> simp [failIf, h]

/-- Claim C8: each impossible flag combination (float_scale with
affine_depth_to_image, float_nonref_cameras without no_extrinsics,
float_timestamp_offsets with no_extrinsics) makes parameterValidation
fail, and main then stops before reading, matching or optimizing. -/
theorem impossible_flag_combos_fail_fast (f : Flags)
    (hbad : (f.float_scale ∧ f.affine_depth_to_image)
      ∨ (f.float_nonref_cameras ∧ ¬ f.no_extrinsics)
      ∨ (f.no_extrinsics ∧ f.float_timestamp_offsets)) :
    (∃ e, parameterValidation f = Except.error e)
      ∧ (∃ e, mainStartup f = Except.error e) := by
  have hval : ∃ e, parameterValidation f = Except.error e := by
    rw [parameterValidation]
    simp only [failIf_bind_error, failIf_error]
    tauto
  obtain ⟨e, he⟩ := hval
  exact ⟨⟨e, he⟩, ⟨e, by simp [mainStartup, he]⟩⟩

/-- A concrete flag configuration that is valid except for combining
float_scale with affine_depth_to_image. -/
def flagsBadCombo : Flags :=
  { robust_threshold := 3, bracket_len := 3 / 5, num_overlaps := 10,
    timestamp_offsets_max_change := 1, refiner_min_angle := 1 / 2,
    depth_tri_weight := 1000, mesh_tri_weight := 0, depth_mesh_weight := 0,
    nav_cam_num_exclude_boundary_pixels := 0, registration := false,
    xyz_file := "", hugin_file := "", float_scale := true,
    affine_depth_to_image := true, float_nonref_cameras := false,
    no_extrinsics := false, float_timestamp_offsets := false,
    save_images_and_depth_clouds := false, save_matches := false,
    out_dir := "", rig_config := "rig.txt", image_list := "list.txt" }

/-- Witness for C8 at the concrete bad combination. -/
theorem impossible_flag_combos_fail_fast_witness :
    (∃ e, parameterValidation flagsBadCombo = Except.error e)
      ∧ (∃ e, mainStartup flagsBadCombo = Except.error e) :=
  impossible_flag_combos_fail_fast flagsBadCombo (Or.inl (by decide))

/-- Claim C7: after a pass, when the reference-sensor intrinsics were not
named to float, the reference sensor keeps its pre-optimization snapshot,
while every other sensor receives the optimized scalars (with the single
solved focal length duplicated into fx and fy). -/
theorem ref_intrinsics_restored (ref : ℕ) (orig : ℕ → CamParams)
    (fl : ℕ → ℝ) (oc : ℕ → ℝ × ℝ) (ds : ℕ → List ℝ) (nav : String) (ni : ℤ)
    (hnav : nav = "") :
    copyBackIntrinsics ref orig fl oc ds nav ni ref = orig ref
    ∧ ∀ it, it ≠ ref →
        copyBackIntrinsics ref orig fl oc ds nav ni it
          = { focalLength := (fl it, fl it), opticalOffset := oc it,
              distortion := ds it } := by
  subst hnav
  constructor
  · simp [copyBackIntrinsics]
  · intro it hit
    simp [copyBackIntrinsics, hit]

/-- Claim C1 evidence: at a track of two inlier observations whose DLT
solve returns a non-finite vector, the copy of multiViewTriangulation
compiled into the optimization driver leaves both observations marked
inlier, while the interest_point.cc copy flags both as outliers.  The
claim, which follows the behavior the specification declares normative,
fails on the driver copy. -/
theorem multiViewTriangulation_nan_divergence :
    (multiViewTriangulationTools triCtxNan tracksPair maskOne).1 0 0 0 = 1
    ∧ (multiViewTriangulationTools triCtxNan tracksPair maskOne).1 0 1 0 = 1
    ∧ (multiViewTriangulationTools triCtxNan tracksPair maskOne).2 = [fun _ => none]
    ∧ (multiViewTriangulationIP triCtxNan tracksPair maskOne).1 0 0 0 = 0
    ∧ (multiViewTriangulationIP triCtxNan tracksPair maskOne).1 0 1 0 = 0 :=
  ⟨rfl, rfl, rfl, rfl, rfl⟩

/-- Helper: reflexivity of the pointwise mask order. -/
theorem maskLE_refl (m : Mask) : maskLE m m := fun _ _ _ => le_refl _

/-- Helper: transitivity of the pointwise mask order. -/
theorem maskLE_trans {m1 m2 m3 : Mask} (h12 : maskLE m1 m2) (h23 : maskLE m2 m3) :
    maskLE m1 m3 := fun p c f => le_trans (h12 p c f) (h23 p c f)

/-- Helper: zeroing one entry never raises the mask. -/
theorem setMapValue_zero_le (m : Mask) (p c f : ℕ) :
    maskLE (setMapValue m p c f 0) m := by
  intro p2 c2 f2
  unfold setMapValue
  split
  · exact Nat.zero_le _
  · exact le_refl _

/-- Helper: a fold whose step never raises the mask never raises it. -/
theorem foldl_maskLE {α : Type} (g : Mask → α → Mask)
    (hg : ∀ m a, maskLE (g m a) m) :
    ∀ (l : List α) (m : Mask), maskLE (l.foldl g m) m := by
  intro l
  induction l with
  | nil => intro m; exact maskLE_refl m
  | cons a l ih => intro m; exact maskLE_trans (ih (g m a)) (hg m a)

/-- Helper: state-carrying variant of foldl_maskLE. -/
theorem foldl_pair_maskLE {α β : Type} (g : Mask × β → α → Mask × β)
    (hg : ∀ s a, maskLE (g s a).1 s.1) :
    ∀ (l : List α) (s : Mask × β), maskLE (l.foldl g s).1 s.1 := by
  intro l
  induction l with
  | nil => intro s; exact maskLE_refl _
  | cons a l ih => intro s; exact maskLE_trans (ih (g s a)) (hg s a)

/-- Helper: flagging a whole track never raises the mask. -/
theorem setTrackOutliers_le (m : Mask) (pid : ℕ) (t : Track) :
    maskLE (setTrackOutliers m pid t) m := by
  unfold setTrackOutliers
  exact foldl_maskLE (fun m2 cf => setMapValue m2 pid cf.1 cf.2 0)
    (fun m2 cf => setMapValue_zero_le m2 pid cf.1 cf.2) t m

/-- Helper: the driver copy of multiViewTriangulation never raises the
mask. -/
theorem multiViewTriangulationTools_le (ctx : TriCtx) (tracks : List Track) (m : Mask) :
    maskLE (multiViewTriangulationTools ctx tracks m).1 m := by
  unfold multiViewTriangulationTools
  refine foldl_pair_maskLE _ ?_ _ (m, [])
  intro s a
  dsimp only
  split
  · exact setTrackOutliers_le s.1 a.1 a.2
  · exact maskLE_refl _

/-- Helper: the interest_point.cc copy of multiViewTriangulation never
raises the mask. -/
theorem multiViewTriangulationIP_le (ctx : TriCtx) (tracks : List Track) (m : Mask) :
    maskLE (multiViewTriangulationIP ctx tracks m).1 m := by
  unfold multiViewTriangulationIP
  refine foldl_pair_maskLE _ ?_ _ (m, [])
  intro s a
  dsimp only
  split
  · exact setTrackOutliers_le s.1 a.1 a.2
  · split
    · exact setTrackOutliers_le s.1 a.1 a.2
    · exact maskLE_refl _

/-- Helper: the angle filter never raises the mask. -/
theorem flagByAngle_le (fc : FlagCtx) (tracks : List Track) (m : Mask) :
    maskLE (flagByAngle fc tracks m) m := by
  unfold flagByAngle
  refine foldl_maskLE _ ?_ _ m
  intro m2 pt
  dsimp only
  split
  · exact maskLE_refl _
  · refine foldl_maskLE _ ?_ _ m2
    intro m3 cf
    split
    · exact maskLE_refl _
    · exact setMapValue_zero_le m3 pt.1 cf.1 cf.2

/-- Helper: an Except-valued fold whose step never raises the mask never
raises it on success. -/
theorem foldlM_except_maskLE {α : Type} (g : Mask → α → Except Unit Mask)
    (hg : ∀ m a m2, g m a = Except.ok m2 → maskLE m2 m) :
    ∀ (l : List α) (m m2 : Mask), List.foldlM g m l = Except.ok m2 → maskLE m2 m := by
  intro l
  induction l with
  | nil =>
    intro m m2 h
    simp only [List.foldlM_nil] at h
    cases h
    exact maskLE_refl _
  | cons a l ih =>
    intro m m2 h
    rw [List.foldlM_cons] at h
    cases hga : g m a with
    | error e => rw [hga] at h; simp [Bind.bind, Except.bind] at h
    | ok mm =>
      rw [hga] at h
      simp only [Bind.bind, Except.bind] at h
      exact maskLE_trans (ih mm m2 h) (hg m a mm hga)

/-- Helper: the reprojection filter never raises the mask on success. -/
theorem flagByReproj_le (fc : FlagCtx) (tracks : List Track) (m m2 : Mask)
    (h : flagByReproj fc tracks m = Except.ok m2) : maskLE m2 m := by
  unfold flagByReproj at h
  refine foldlM_except_maskLE _ ?_ _ _ _ h
  intro m3 pt m4 hpt
  refine foldlM_except_maskLE _ ?_ _ _ _ hpt
  intro m5 cf m6 hcf
  dsimp only at hcf
  split at hcf
  · cases hcf; exact maskLE_refl _
  · split at hcf
    · cases hcf
    · split at hcf
      · cases hcf; exact maskLE_refl _
      · cases hcf; exact setMapValue_zero_le m5 pt.1 cf.1 cf.2

/-- Helper: the combined outlier flagger never raises the mask on
success. -/
theorem flagOutliers_le (fc : FlagCtx) (tracks : List Track) (m m2 : Mask)
    (h : flagOutliersByTriAngleAndReprojErr fc tracks m = Except.ok m2) : maskLE m2 m := by
  unfold flagOutliersByTriAngleAndReprojErr at h
  exact maskLE_trans (flagByReproj_le _ _ _ _ h) (flagByAngle_le fc tracks m)

/-- Helper: one driver pass never raises the mask on success. -/
theorem driverPass_le (a e : ℝ) (pc : PassCtx) (tracks : List Track) (m m2 : Mask)
    (h : driverPass a e pc tracks m = Except.ok m2) : maskLE m2 m := by
  unfold driverPass at h
  exact maskLE_trans (flagOutliers_le _ _ _ _ h)
    (multiViewTriangulationTools_le pc.tri tracks m)

/-- Helper: any number of driver passes never raises the mask on
success. -/
theorem runPasses_le (a e : ℝ) (pd : ℕ → PassCtx) (tracks : List Track) :
    ∀ (n : ℕ) (m m2 : Mask), runPasses a e pd tracks n m = Except.ok m2 → maskLE m2 m := by
  intro n
  induction n with
  | zero =>
    intro m m2 h
    cases h
    exact maskLE_refl _
  | succ n ih =>
    intro m m2 h
    unfold runPasses at h
    cases hrun : runPasses a e pd tracks n m with
    | error u => rw [hrun] at h; simp [Bind.bind, Except.bind] at h
    | ok mk =>
      rw [hrun] at h
      simp only [Bind.bind, Except.bind] at h
      exact maskLE_trans (driverPass_le a e (pd n) tracks mk m2 h) (ih m mk hrun)

/-- Claim C3: the inlier mask is monotone.  Both multiViewTriangulation
copies, the angle filter and the reprojection filter only ever clear
entries, never set one back to 1; consequently the mask after any number
of driver passes is pointwise at most the initial mask, and across
consecutive passes it is non-increasing. -/
theorem inlier_mask_monotone :
    (∀ ctx tracks m, maskLE (multiViewTriangulationTools ctx tracks m).1 m)
    ∧ (∀ ctx tracks m, maskLE (multiViewTriangulationIP ctx tracks m).1 m)
    ∧ (∀ fc tracks m, maskLE (flagByAngle fc tracks m) m)
    ∧ (∀ fc tracks m m2, flagOutliersByTriAngleAndReprojErr fc tracks m = Except.ok m2 →
        maskLE m2 m)
    ∧ (∀ a e pd tracks n m m2, runPasses a e pd tracks n m = Except.ok m2 → maskLE m2 m)
    ∧ (∀ a e pd tracks n m mk m2, runPasses a e pd tracks n m = Except.ok mk →
        runPasses a e pd tracks (n + 1) m = Except.ok m2 → maskLE m2 mk) := by
  refine ⟨multiViewTriangulationTools_le, multiViewTriangulationIP_le, flagByAngle_le,
    flagOutliers_le, runPasses_le, ?_⟩
  intro a e pd tracks n m mk m2 hn hs
  unfold runPasses at hs
  rw [hn] at hs
  simp only [Bind.bind, Except.bind] at hs
  exact driverPass_le a e (pd n) tracks mk m2 hs

/-- Witness for C3: a concrete one-pass run on an empty track list leaves
the all-ones mask unchanged, and the theorem then bounds it by the
previous pass state. -/
theorem inlier_mask_monotone_witness : maskLE maskOne maskOne :=
  inlier_mask_monotone.2.2.2.2.2 1 25 (fun _ => passCtxTrivial) [] 0 maskOne maskOne maskOne
    rfl rfl

/-- Claim C6 as stated is false at the default two passes: the claim
requires the full outlier flagger, boundary exclusion included, to run
after each pass's solve and before the next pass's re-triangulation, but
in the trace of the driver the boundary-exclusion filter never occurs
after any solve. -/
theorem full_flagger_after_solve_counterexample :
    ¬ (∀ p, p < 2 →
        List.Sublist [DriverEvent.solveStep p, DriverEvent.exclusionFilter]
          (driverEventTrace 2)
        ∧ List.Sublist [DriverEvent.solveStep p, DriverEvent.angleReprojFilter p]
          (driverEventTrace 2)
        ∧ (p + 1 < 2 →
            List.Sublist [DriverEvent.solveStep p, DriverEvent.exclusionFilter,
              DriverEvent.triangulationStep (p + 1)] (driverEventTrace 2))) := by
  decide

/-- Helper: the events of pass p occur, in order, inside the pass
portion of the trace. -/
theorem passEvents_sublist (n p : ℕ) (hp : p < n) :
    List.Sublist (passEvents p) ((List.range n).flatMap passEvents) := by
  induction n with
  | zero => omega
  | succ n ih =>
    rw [List.range_succ]
    rcases Nat.lt_succ_iff_lt_or_eq.mp hp with h | h
    · exact (ih h).trans (by simp)
    · subst h
      simp

/-- Helper: consecutive passes occur, in order, inside the pass portion
of the trace. -/
theorem passEvents_pair_sublist (n p : ℕ) (hp : p + 1 < n) :
    List.Sublist (passEvents p ++ passEvents (p + 1))
      ((List.range n).flatMap passEvents) := by
  induction n with
  | zero => omega
  | succ n ih =>
    rw [List.range_succ]
    rcases Nat.lt_succ_iff_lt_or_eq.mp hp with h | h
    · exact (ih h).trans (by simp)
    · rw [List.flatMap_append]
      rw [h]
      exact List.Sublist.append (passEvents_sublist n p (by omega)) (by simp)

/-- Helper: the boundary-exclusion event never occurs among the pass
events. -/
theorem exclusion_not_mem_passes (n : ℕ) :
    DriverEvent.exclusionFilter ∉ (List.range n).flatMap passEvents := by
  intro hmem
  rcases List.mem_flatMap.mp hmem with ⟨p, _, hin⟩
  simp [passEvents] at hin

/-- Claim C6, amended: the boundary-exclusion filter runs exactly once,
at the very start of the driver, before the first re-triangulation; the
convergence-angle and reprojection filters run after each pass's solve
and before the next pass's re-triangulation. -/
theorem driver_flagger_order (n p : ℕ) (hp : p < n) :
    (driverEventTrace n).head? = some DriverEvent.exclusionFilter
    ∧ (driverEventTrace n).count DriverEvent.exclusionFilter = 1
    ∧ List.Sublist [DriverEvent.triangulationStep p, DriverEvent.solveStep p,
        DriverEvent.angleReprojFilter p] (driverEventTrace n)
    ∧ (p + 1 < n →
        List.Sublist [DriverEvent.solveStep p, DriverEvent.angleReprojFilter p,
          DriverEvent.triangulationStep (p + 1)] (driverEventTrace n)) := by
  refine ⟨rfl, ?_, ?_, ?_⟩
  · unfold driverEventTrace
    rw [List.count_cons_self]
    rw [List.count_eq_zero.mpr (exclusion_not_mem_passes n)]
  · exact List.Sublist.cons _ (passEvents_sublist n p hp)
  · intro hp1
    refine List.Sublist.cons _ ((?_ : List.Sublist _ (passEvents p ++ passEvents (p + 1))).trans
      (passEvents_pair_sublist n p hp1))
    unfold passEvents
    refine List.Sublist.cons _ (List.Sublist.cons₂ _ (List.Sublist.cons₂ _
      (List.Sublist.cons₂ _ (List.nil_sublist _))))

/-- Witness for the amended C6 at the default two passes. -/
theorem driver_flagger_order_witness :
    (driverEventTrace 2).head? = some DriverEvent.exclusionFilter
    ∧ (driverEventTrace 2).count DriverEvent.exclusionFilter = 1
    ∧ List.Sublist [DriverEvent.triangulationStep 0, DriverEvent.solveStep 0,
        DriverEvent.angleReprojFilter 0] (driverEventTrace 2)
    ∧ (0 + 1 < 2 →
        List.Sublist [DriverEvent.solveStep 0, DriverEvent.angleReprojFilter 0,
          DriverEvent.triangulationStep (0 + 1)] (driverEventTrace 2)) :=
  driver_flagger_order 2 0 (by decide)

/-- Helper: inserting a fresh key into a std::map appends it. -/
theorem mapInsert_not_mem (l : List (ℕ × ℕ)) (k v : ℕ) (h : ∀ p ∈ l, p.1 ≠ k) :
    mapInsert l k v = l ++ [(k, v)] := by
  unfold mapInsert
  rw [if_neg]
  simp only [List.any_eq_true, beq_iff_eq, not_exists, not_and]
  intro p hp
  exact h p hp

/-- Helper: an outlier observation does not change the inlier count. -/
theorem inlierObsCount_cons_outlier (mask : Mask) (pid : ℕ) (cf : ℕ × ℕ) (t : Track)
    (h0 : getMapValue mask pid cf.1 cf.2 = 0) :
    inlierObsCount mask pid (cf :: t) = inlierObsCount mask pid t := by
  unfold inlierObsCount
  rw [List.filter_cons]
  simp [h0]

/-- Helper: an inlier observation adds one to the inlier count. -/
theorem inlierObsCount_cons_inlier (mask : Mask) (pid : ℕ) (cf : ℕ × ℕ) (t : Track)
    (h0 : getMapValue mask pid cf.1 cf.2 ≠ 0) :
    inlierObsCount mask pid (cf :: t) = inlierObsCount mask pid t + 1 := by
  unfold inlierObsCount
  rw [List.filter_cons, if_pos (by simpa [bne_iff_ne] using h0)]
  rfl

/-- Helper: over a track with distinct cids, the writeNvmTrack fold grows
its output map by exactly the number of inlier observations. -/
theorem writeNvmTrack_aux (mask : Mask) (pid : ℕ) :
    ∀ (track : Track) (acc : List (ℕ × ℕ)) (fc : ℕ → ℕ),
      (track.map Prod.fst).Nodup →
      (∀ cf ∈ track, ∀ p ∈ acc, p.1 ≠ cf.1) →
      ((track.foldl
        (fun (acc2 : List (ℕ × ℕ) × (ℕ → ℕ)) cf =>
          if getMapValue mask pid cf.1 cf.2 = 0 then acc2
          else (mapInsert acc2.1 cf.1 (acc2.2 cf.1),
                fun c => if c = cf.1 then acc2.2 cf.1 + 1 else acc2.2 c))
        (acc, fc)).1).length = acc.length + inlierObsCount mask pid track := by
  intro track
  induction track with
  | nil =>
    intro acc fc _ _
    simp [inlierObsCount]
  | cons cf t ih =>
    intro acc fc hnd hdisj
    have hnd2 : (t.map Prod.fst).Nodup := by
      simp only [List.map_cons, List.nodup_cons] at hnd
      exact hnd.2
    have hhead : cf.1 ∉ t.map Prod.fst := by
      simp only [List.map_cons, List.nodup_cons] at hnd
      exact hnd.1
    rw [List.foldl_cons]
    by_cases h0 : getMapValue mask pid cf.1 cf.2 = 0
    · rw [if_pos h0]
      rw [ih acc fc hnd2 (fun cf2 h2 => hdisj cf2 (List.mem_cons_of_mem cf h2))]
      rw [inlierObsCount_cons_outlier mask pid cf t h0]
    · rw [if_neg h0]
      have hfresh : ∀ p ∈ acc, p.1 ≠ cf.1 :=
        fun p hp => hdisj cf (List.mem_cons_self cf t) p hp
      have hdisj2 : ∀ cf2 ∈ t, ∀ p ∈ mapInsert acc cf.1 (fc cf.1), p.1 ≠ cf2.1 := by
        intro cf2 h2 p hp
        rw [mapInsert_not_mem acc cf.1 (fc cf.1) hfresh] at hp
        rcases List.mem_append.mp hp with hp2 | hp2
        · exact hdisj cf2 (List.mem_cons_of_mem cf h2) p hp2
        · have : p = (cf.1, fc cf.1) := by simpa using hp2
          subst this
          intro hcc
          exact hhead (hcc ▸ List.mem_map_of_mem Prod.fst h2)
      rw [ih (mapInsert acc cf.1 (fc cf.1)) _ hnd2 hdisj2]
      rw [mapInsert_not_mem acc cf.1 (fc cf.1) hfresh]
      rw [inlierObsCount_cons_inlier mask pid cf t h0]
      simp
      omega

/-- Helper: writeNvmTrack produces one map entry per inlier observation
when the cids of the track are distinct. -/
theorem writeNvmTrack_length (mask : Mask) (pid : ℕ) (track : Track) (fc : ℕ → ℕ)
    (hnd : (track.map Prod.fst).Nodup) :
    ((writeNvmTrack mask pid track fc).1).length = inlierObsCount mask pid track := by
  unfold writeNvmTrack
  simpa using writeNvmTrack_aux mask pid track [] fc hnd (by simp)

/-- Helper: the writeNvmFilter fold keeps exactly the tracks whose inlier
count exceeds two, in order. -/
theorem writeNvmFilter_aux (mask : Mask) :
    ∀ (l : List (Track × V3)) (fc : ℕ → ℕ) (p0 : ℕ) (acc : List (List (ℕ × ℕ) × V3)),
      (∀ t ∈ l, ((t.1.map Prod.fst)).Nodup) →
      (((l.foldl
        (fun (st : (ℕ → ℕ) × ℕ × List (List (ℕ × ℕ) × V3)) txy =>
          let r := writeNvmTrack mask st.2.1 txy.1 st.1
          (r.2, st.2.1 + 1,
            if 2 < r.1.length then st.2.2 ++ [(r.1, txy.2)] else st.2.2))
        (fc, p0, acc)).2.2).map Prod.snd)
      = acc.map Prod.snd
        ++ ((l.enumFrom p0).filter
            (fun e => 2 < inlierObsCount mask e.1 e.2.1)).map (fun e => e.2.2) := by
  intro l
  induction l with
  | nil =>
    intro fc p0 acc _
    simp
  | cons txy l ih =>
    intro fc p0 acc hnd
    have hlen : ((writeNvmTrack mask p0 txy.1 fc).1).length = inlierObsCount mask p0 txy.1 :=
      writeNvmTrack_length mask p0 txy.1 fc (hnd txy (List.mem_cons_self txy l))
    have hnd2 : ∀ t ∈ l, ((t.1.map Prod.fst)).Nodup :=
      fun t ht => hnd t (List.mem_cons_of_mem txy ht)
    rw [List.foldl_cons]
    dsimp only
    have henum : (txy :: l).enumFrom p0 = (p0, txy) :: l.enumFrom (p0 + 1) := rfl
    rw [henum, List.filter_cons]
    simp only [decide_eq_true_eq]
    by_cases hk : 2 < inlierObsCount mask p0 txy.1
    · rw [if_pos (by rw [hlen]; exact hk), if_pos hk, ih _ _ _ hnd2]
      simp
    · rw [if_neg (by rw [hlen]; exact hk), if_neg hk]
      exact ih _ _ _ hnd2

/-- Claim C10: writeNvm includes a track in the NVM output exactly when
its number of inlier observations is strictly greater than two; in
particular a track with exactly two inlier observations is omitted.  The
written triangulated points are those of the kept tracks, in order. -/
theorem writeNvm_keeps_tracks_iff (tracks : List Track) (xyzs : List V3) (mask : Mask)
    (hnd : ∀ t ∈ tracks, (t.map Prod.fst).Nodup) :
    (writeNvmFilter tracks xyzs mask).map Prod.snd = specKeptXyz tracks xyzs mask := by
  unfold writeNvmFilter specKeptXyz
  have hz : ∀ t ∈ tracks.zip xyzs, ((t.1.map Prod.fst)).Nodup := by
    intro t ht
    exact hnd t.1 (List.of_mem_zip ht).1
  have := writeNvmFilter_aux mask (tracks.zip xyzs) (fun _ => 0) 0 [] hz
  simpa [List.enum] using this

/-- Witness for C10: of two fully-inlier tracks with two and three
observations, only the three-observation track is written. -/
theorem writeNvm_keeps_tracks_iff_witness :
    (writeNvmFilter tracksTwoThree xyzsTwoThree maskOne).map Prod.snd
      = specKeptXyz tracksTwoThree xyzsTwoThree maskOne :=
  writeNvm_keeps_tracks_iff tracksTwoThree xyzsTwoThree maskOne (by decide)

/-- Helper: folding keypoint stores over one measure list whose stored
pixels agree with a reference table keeps every already-correct position
correct and makes every stored position correct. -/
theorem kpStore_fold (km : ℕ → ℕ → ℝ × ℝ) :
    ∀ (obs : List (ℕ × ℕ × (ℝ × ℝ))) (kp : ℕ → ℕ → ℝ × ℝ) (c f : ℕ),
      (∀ o ∈ obs, o.2.2 = km o.1 (o.2).1) →
      (kp c f = km c f ∨ ∃ o ∈ obs, o.1 = c ∧ (o.2).1 = f) →
      (obs.foldl kpStore kp) c f = km c f := by
  intro obs
  induction obs with
  | nil =>
    intro kp c f _ h
    rcases h with h | ⟨o, ho, _⟩
    · exact h
    · exact absurd ho (List.not_mem_nil o)
  | cons o obs ih =>
    intro kp c f hstore h
    rw [List.foldl_cons]
    apply ih _ c f (fun o2 h2 => hstore o2 (List.mem_cons_of_mem o h2))
    rcases h with h | ⟨o2, ho2, hcf⟩
    · left
      unfold kpStore
      split
      case isTrue hx =>
        rw [hstore o (List.mem_cons_self o obs), ← hx.1, ← hx.2]
      case isFalse => exact h
    · rcases List.mem_cons.mp ho2 with heq | htail
      · subst heq
        left
        unfold kpStore
        rw [if_pos ⟨hcf.1.symm, hcf.2.symm⟩]
        rw [hstore o2 (List.mem_cons_self o2 obs), hcf.1, hcf.2]
      · exact Or.inr ⟨o2, htail, hcf⟩

/-- Helper: same statement for the outer fold over all point blocks. -/
theorem kpStore_fold_pts (km : ℕ → ℕ → ℝ × ℝ) :
    ∀ (pts : List NvmPoint) (kp : ℕ → ℕ → ℝ × ℝ) (c f : ℕ),
      (∀ p ∈ pts, ∀ o ∈ p.obs, o.2.2 = km o.1 (o.2).1) →
      (kp c f = km c f ∨ ∃ p ∈ pts, ∃ o ∈ p.obs, o.1 = c ∧ (o.2).1 = f) →
      (pts.foldl (fun kp2 p => p.obs.foldl kpStore kp2) kp) c f = km c f := by
  intro pts
  induction pts with
  | nil =>
    intro kp c f _ h
    rcases h with h | ⟨p, hp, _⟩
    · exact h
    · exact absurd hp (List.not_mem_nil p)
  | cons p pts ih =>
    intro kp c f hstore h
    rw [List.foldl_cons]
    apply ih _ c f (fun p2 h2 => hstore p2 (List.mem_cons_of_mem p h2))
    rcases h with h | ⟨p2, hp2, o, ho, hcf⟩
    · exact Or.inl (kpStore_fold km p.obs kp c f
        (hstore p (List.mem_cons_self p pts)) (Or.inl h))
    · rcases List.mem_cons.mp hp2 with heq | htail
      · subst heq
        exact Or.inl (kpStore_fold km p2.obs kp c f
          (hstore p2 (List.mem_cons_self p2 pts)) (Or.inr ⟨o, ho, hcf⟩))
      · exact Or.inr ⟨p2, htail, o, ho, hcf⟩

/-- Claim C9: writing an NVM file and reading it back returns the camera
rotations and translations, the landmark positions and the filenames
exactly, and every keypoint referenced by a track is returned at its
written pixel coordinates.  Exact equality of the rotations implies the
claimed agreement of the quaternions up to overall sign, and exact
equality of translations and landmarks implies the claimed 1e-9 relative
bound.  Valid input means: at least one camera and one track, as many
triangulated points as tracks, every track with at least two
measurements referencing existing cameras, orthogonal rotations, and the
Eigen quaternion conversions round-tripping on the given rotations. -/
theorem nvm_write_read_roundtrip
    (toQuat : M3 → Fin 4 → ℝ) (quatToMat : (Fin 4 → ℝ) → M3)
    (initKp km : ℕ → ℕ → ℝ × ℝ)
    (cams : List (String × ℝ × Affine3)) (tracks : List Track) (xyzs : List V3)
    (hcams : cams ≠ []) (htr : tracks ≠ [])
    (hlen : tracks.length = xyzs.length)
    (hobs : ∀ t ∈ tracks, 1 < t.length)
    (hcid : ∀ t ∈ tracks, ∀ cf ∈ t, cf.1 < cams.length)
    (hrot : ∀ c ∈ cams, Matrix.transpose (c.2).2.linear * (c.2).2.linear = 1)
    (hq : ∀ c ∈ cams, quatToMat (toQuat (c.2).2.linear) = (c.2).2.linear) :
    ∃ fd rd, WriteNVM toQuat km cams tracks xyzs = Except.ok fd
      ∧ ReadNVM quatToMat initKp fd = Except.ok rd
      ∧ rd.cid_to_cam_t_global = cams.map (fun c => (c.2).2)
      ∧ rd.pid_to_xyz = xyzs
      ∧ rd.cid_to_filename = cams.map (fun c => c.1)
      ∧ (∀ t ∈ tracks, ∀ cf ∈ t, rd.cid_to_keypoint_map cf.1 cf.2 = km cf.1 cf.2) := by
  have hpos1 : ¬ (tracks.length ≠ xyzs.length) := by simpa using hlen
  have hpos2 : ¬ (tracks.any (fun t => t.length ≤ 1) = true) := by
    simp only [List.any_eq_true, decide_eq_true_eq, not_exists, not_and, not_le]
    exact hobs
  have hw : WriteNVM toQuat km cams tracks xyzs = Except.ok
      { cams := cams.map (fun c =>
          { name := c.1, focal := (c.2).1, q := toQuat (c.2).2.linear,
            center := -((c.2).2.linear⁻¹.mulVec (c.2).2.translation), d1 := 0, d2 := 0 }),
        pts := (tracks.zip xyzs).map (fun tx =>
          { xyz := tx.2, rgb := fun _ => 0,
            obs := tx.1.map (fun cf => (cf.1, cf.2, km cf.1 cf.2)) }) } := by
    unfold WriteNVM
    rw [if_neg hpos1, if_neg hpos2]
  have hclen : ¬ ((cams.map (fun c =>
      ({ name := c.1, focal := (c.2).1, q := toQuat (c.2).2.linear,
         center := -((c.2).2.linear⁻¹.mulVec (c.2).2.translation), d1 := 0, d2 := 0 }
         : NvmCam))).length < 1) := by
    simp only [List.length_map, not_lt]
    exact List.length_pos.mpr hcams
  have hplen : ¬ (((tracks.zip xyzs).map (fun tx =>
      ({ xyz := tx.2, rgb := fun _ => 0,
         obs := tx.1.map (fun cf => (cf.1, cf.2, km cf.1 cf.2)) } : NvmPoint))).length < 1) := by
    simp only [List.length_map, List.length_zip, hlen, Nat.min_self, not_lt]
    rw [← hlen]
    exact List.length_pos.mpr htr
  refine ⟨_, ?_, hw, ?_, ?_, ?_, ?_, ?_⟩
  rotate_left 1
  · unfold ReadNVM
    rw [if_neg hclen, if_neg hplen]
    exact rfl
  · dsimp only
    rw [List.map_map]
    apply List.map_congr_left
    intro c hc
    have hinv : (c.2).2.linear⁻¹ = Matrix.transpose (c.2).2.linear :=
      Matrix.inv_eq_left_inv (hrot c hc)
    have hRRt : (c.2).2.linear * Matrix.transpose (c.2).2.linear = 1 :=
      Matrix.mul_eq_one_comm.mp (hrot c hc)
    dsimp only [Function.comp]
    rw [hq c hc, hinv, Matrix.mulVec_neg, neg_neg, Matrix.mulVec_mulVec, hRRt,
      Matrix.one_mulVec]
  · dsimp only
    rw [List.map_map]
    have : (tracks.zip xyzs).map (fun tx => tx.2) = xyzs :=
      List.map_snd_zip tracks xyzs (le_of_eq hlen.symm)
    simpa using this
  · dsimp only
    rw [List.map_map]
    rfl
  · intro t ht cf hcf
    dsimp only
    apply kpStore_fold_pts km _ initKp cf.1 cf.2
    · intro p hp o ho
      rcases List.mem_map.mp hp with ⟨tx, _, rfl⟩
      rcases List.mem_map.mp ho with ⟨cf2, _, rfl⟩
      rfl
    · right
      have hmem : t ∈ (tracks.zip xyzs).map Prod.fst := by
        rw [List.map_fst_zip tracks xyzs (le_of_eq hlen)]
        exact ht
      rcases List.mem_map.mp hmem with ⟨tx, htx, hfst⟩
      refine ⟨_, List.mem_map_of_mem _ htx, ⟨cf.1, cf.2, km cf.1 cf.2⟩, ?_, rfl, rfl⟩
      dsimp only
      rw [hfst]
      exact List.mem_map_of_mem _ hcf

/-- Witness for C9 at a concrete one-camera, one-track input with the
identity rotation and trivial quaternion conversions. -/
theorem nvm_write_read_roundtrip_witness :
    ∃ fd rd, WriteNVM (fun _ => ![1, 0, 0, 0]) (fun c f => ((c : ℝ), (f : ℝ)))
        [("cam0/1.jpg", 600, ⟨1, ![1, 2, 3]⟩)] [[(0, 0), (0, 1)]] [![4, 5, 6]]
        = Except.ok fd
      ∧ ReadNVM (fun _ => 1) (fun _ _ => (0, 0)) fd = Except.ok rd
      ∧ rd.cid_to_cam_t_global
          = [("cam0/1.jpg", (600 : ℝ), (⟨1, ![1, 2, 3]⟩ : Affine3))].map (fun c => (c.2).2)
      ∧ rd.pid_to_xyz = [![4, 5, 6]]
      ∧ rd.cid_to_filename
          = [("cam0/1.jpg", (600 : ℝ), (⟨1, ![1, 2, 3]⟩ : Affine3))].map (fun c => c.1)
      ∧ (∀ t ∈ [[(0, 0), (0, 1)]], ∀ cf ∈ t,
          rd.cid_to_keypoint_map cf.1 cf.2 = ((cf.1 : ℝ), (cf.2 : ℝ))) :=
  nvm_write_read_roundtrip (fun _ => ![1, 0, 0, 0]) (fun _ => 1) (fun _ _ => (0, 0))
    (fun c f => ((c : ℝ), (f : ℝ)))
    [("cam0/1.jpg", 600, ⟨1, ![1, 2, 3]⟩)] [[(0, 0), (0, 1)]] [![4, 5, 6]]
    (by simp) (by simp) rfl (by decide) (by decide)
    (by
      intro c hc
      simp only [List.mem_singleton] at hc
      subst hc
      simp)
    (by
      intro c hc
      simp only [List.mem_singleton] at hc
      subst hc
      rfl)

/-- Witness for C7 at a concrete input with two sensors. -/
theorem ref_intrinsics_restored_witness :
    copyBackIntrinsics 0 (fun _ => ⟨(600, 601), (320, 240), [1]⟩)
        (fun _ => 700) (fun _ => (0, 0)) (fun _ => [2]) "" 20 0
      = ⟨(600, 601), (320, 240), [1]⟩
    ∧ ∀ it, it ≠ 0 →
        copyBackIntrinsics 0 (fun _ => ⟨(600, 601), (320, 240), [1]⟩)
            (fun _ => 700) (fun _ => (0, 0)) (fun _ => [2]) "" 20 it
          = ⟨(700, 700), (0, 0), [2]⟩ :=
  ref_intrinsics_restored 0 (fun _ => ⟨(600, 601), (320, 240), [1]⟩)
    (fun _ => 700) (fun _ => (0, 0)) (fun _ => [2]) "" 20 rfl


theorem consecDists_inEx : consecDists inEx = 1 + Real.sqrt 2 + Real.sqrt 2 := by
  simp [consecDists, inEx, norm3]
  norm_num

theorem consecDists_outEx : consecDists outEx = 2 + Real.sqrt 8 + Real.sqrt 8 := by
  simp [consecDists, outEx, norm3]
  norm_num

theorem centroid_inEx : centroid inEx = ![1/4, 1/4, 1/4] := by
  funext i
  fin_cases i <;> norm_num [centroid, inEx]

theorem centroid_outEx : centroid (scaledOut outEx 2) = ![9/4, 1/4, 1/4] := by
  funext i
  fin_cases i <;> norm_num [centroid, scaledOut, outEx]

theorem kabschCov_ex : kabschCov inEx outEx 2 = covEx := by
  ext i j
  fin_cases i <;> fin_cases j <;>
    norm_num [kabschCov, covarianceOf, centerAt, centroid, scaledOut, inEx, outEx, covEx]

theorem detRz90 : Rz90.det = 1 := by
  rw [Matrix.det_fin_three]
  norm_num [Rz90, -Matrix.vecCons_const]

theorem diagOneThree : Matrix.diagonal ![(1:ℝ), 1, 1] = 1 := by
  ext i j
  fin_cases i <;> fin_cases j <;>
    norm_num [Matrix.diagonal_apply, Matrix.one_apply, Fin.ext_iff, -Matrix.vecCons_const]

set_option maxHeartbeats 2000000 in
theorem kabschSvdRot (U V : M3)
    (hU : Matrix.transpose U * U = 1)
    (hV : Matrix.transpose V * V = 1)
    (hfact : covEx = U * Matrix.diagonal ![1, 1, (1:ℝ)/4] * Matrix.transpose V) :
    V * Matrix.transpose U = Rz90 := by
  have hACon : covEx * Matrix.transpose covEx
      = !![11/16, -5/16, -5/16; -5/16, 11/16, -5/16; -5/16, -5/16, (11:ℝ)/16] := by
    ext i j
    rw [Matrix.mul_apply]
    simp only [Matrix.transpose_apply, Fin.sum_univ_three]
    fin_cases i <;> fin_cases j <;> norm_num [covEx]
  have hdd : Matrix.diagonal ![1, 1, (1:ℝ)/4] * Matrix.diagonal ![1, 1, (1:ℝ)/4]
      = Matrix.diagonal ![1, 1, (1:ℝ)/16] := by
    ext i j
    simp only [Matrix.diagonal_mul_diagonal, Matrix.diagonal_apply]
    fin_cases i <;> fin_cases j <;> norm_num
  have hA : covEx * Matrix.transpose covEx * U = U * Matrix.diagonal ![1, 1, (1:ℝ)/16] := by
    conv_lhs => rw [hfact]
    rw [Matrix.transpose_mul, Matrix.transpose_mul, Matrix.transpose_transpose,
      Matrix.diagonal_transpose]
    simp only [Matrix.mul_assoc]
    rw [← Matrix.mul_assoc (Matrix.transpose V) V, hV, Matrix.one_mul, hU, Matrix.mul_one, hdd]
  have hAc : (!![11/16, -5/16, -5/16; -5/16, 11/16, -5/16; -5/16, -5/16, (11:ℝ)/16]) * U
      = U * Matrix.diagonal ![1, 1, (1:ℝ)/16] := by
    rw [← hACon]; exact hA
  have h0 := Matrix.ext_iff.mpr hAc 0 2
  have h1 := Matrix.ext_iff.mpr hAc 1 2
  have h2 := Matrix.ext_iff.mpr hAc 2 2
  simp [Matrix.mul_apply, Fin.sum_univ_three, Matrix.diagonal_apply] at h0 h1 h2
  have hu1 : U 1 2 = U 0 2 := by linarith
  have hu2 : U 2 2 = U 0 2 := by linarith
  have hcovtU : Matrix.transpose covEx * U = V * Matrix.diagonal ![1, 1, (1:ℝ)/4] := by
    conv_lhs => rw [hfact]
    rw [Matrix.transpose_mul, Matrix.transpose_mul, Matrix.transpose_transpose,
      Matrix.diagonal_transpose]
    simp only [Matrix.mul_assoc]
    rw [hU, Matrix.mul_one]
  have hCovT : Matrix.transpose covEx
      = !![1/4, -3/4, 1/4; 3/4, -1/4, -1/4; -1/4, -1/4, (3:ℝ)/4] := by
    ext i j
    fin_cases i <;> fin_cases j <;> norm_num [covEx, Matrix.transpose_apply]
  rw [hCovT] at hcovtU
  have hv0 := Matrix.ext_iff.mpr hcovtU 0 2
  have hv1 := Matrix.ext_iff.mpr hcovtU 1 2
  have hv2 := Matrix.ext_iff.mpr hcovtU 2 2
  rw [Matrix.mul_diagonal] at hv0 hv1 hv2
  simp [Matrix.mul_apply, Fin.sum_univ_three] at hv0 hv1 hv2
  rw [hu1, hu2] at hv0 hv1 hv2
  have hw0 : V 0 2 = -U 0 2 := by linarith
  have hw1 : V 1 2 = U 0 2 := by linarith
  have hw2 : V 2 2 = U 0 2 := by linarith
  have hU22 := Matrix.ext_iff.mpr hU 2 2
  simp [Matrix.mul_apply, Fin.sum_univ_three, Matrix.transpose_apply,
    Matrix.one_apply] at hU22
  rw [hu1, hu2] at hU22
  have haa : U 0 2 ^ 2 = 1/3 := by linear_combination hU22 / 3
  have hf00 := Matrix.ext_iff.mpr hfact 0 0
  have hf01 := Matrix.ext_iff.mpr hfact 0 1
  have hf02 := Matrix.ext_iff.mpr hfact 0 2
  have hf10 := Matrix.ext_iff.mpr hfact 1 0
  have hf11 := Matrix.ext_iff.mpr hfact 1 1
  have hf12 := Matrix.ext_iff.mpr hfact 1 2
  have hf20 := Matrix.ext_iff.mpr hfact 2 0
  have hf21 := Matrix.ext_iff.mpr hfact 2 1
  have hf22 := Matrix.ext_iff.mpr hfact 2 2
  simp [covEx, Matrix.mul_apply, Fin.sum_univ_three, Matrix.diagonal_apply,
    Matrix.transpose_apply, -Matrix.vecCons_const]
    at hf00 hf01 hf02 hf10 hf11 hf12 hf20 hf21 hf22
  simp only [hu1, hu2, hw0, hw1, hw2]
    at hf00 hf01 hf02 hf10 hf11 hf12 hf20 hf21 hf22
  ext i j
  fin_cases i <;> fin_cases j
  · simp [Rz90, Matrix.mul_apply, Fin.sum_univ_three, Matrix.transpose_apply,
      hu1, hu2, hw0, hw1, hw2, -Matrix.vecCons_const]
    linear_combination -hf00 - (3/4) * haa
  · simp [Rz90, Matrix.mul_apply, Fin.sum_univ_three, Matrix.transpose_apply,
      hu1, hu2, hw0, hw1, hw2, -Matrix.vecCons_const]
    linear_combination -hf10 - (3/4) * haa
  · simp [Rz90, Matrix.mul_apply, Fin.sum_univ_three, Matrix.transpose_apply,
      hu1, hu2, hw0, hw1, hw2, -Matrix.vecCons_const]
    linear_combination -hf20 - (3/4) * haa
  · simp [Rz90, Matrix.mul_apply, Fin.sum_univ_three, Matrix.transpose_apply,
      hu1, hu2, hw0, hw1, hw2, -Matrix.vecCons_const]
    linear_combination -hf01 + (3/4) * haa
  · simp [Rz90, Matrix.mul_apply, Fin.sum_univ_three, Matrix.transpose_apply,
      hu1, hu2, hw0, hw1, hw2, -Matrix.vecCons_const]
    linear_combination -hf11 + (3/4) * haa
  · simp [Rz90, Matrix.mul_apply, Fin.sum_univ_three, Matrix.transpose_apply,
      hu1, hu2, hw0, hw1, hw2, -Matrix.vecCons_const]
    linear_combination -hf21 + (3/4) * haa
  · simp [Rz90, Matrix.mul_apply, Fin.sum_univ_three, Matrix.transpose_apply,
      hu1, hu2, hw0, hw1, hw2, -Matrix.vecCons_const]
    linear_combination -hf02 + (3/4) * haa
  · simp [Rz90, Matrix.mul_apply, Fin.sum_univ_three, Matrix.transpose_apply,
      hu1, hu2, hw0, hw1, hw2, -Matrix.vecCons_const]
    linear_combination -hf12 + (3/4) * haa
  · simp [Rz90, Matrix.mul_apply, Fin.sum_univ_three, Matrix.transpose_apply,
      hu1, hu2, hw0, hw1, hw2, -Matrix.vecCons_const]
    linear_combination -hf22 + (3/4) * haa

theorem RzT_Rz : Matrix.transpose Rz90 * Rz90 = 1 := by
  ext i j
  rw [Matrix.mul_apply]
  simp only [Matrix.transpose_apply, Fin.sum_univ_three]
  fin_cases i <;> fin_cases j <;>
    norm_num [Rz90, Matrix.one_apply, Fin.ext_iff, -Matrix.vecCons_const]

theorem WtW_diag : Matrix.transpose Wex * Wex = Matrix.diagonal ![2, 6, (3:ℝ)] := by
  ext i j
  rw [Matrix.mul_apply]
  simp only [Matrix.transpose_apply, Fin.sum_univ_three]
  fin_cases i <;> fin_cases j <;>
    norm_num [Wex, Matrix.diagonal_apply, Fin.ext_iff, -Matrix.vecCons_const]

theorem DdD_one : Dex * Matrix.diagonal ![2, 6, (3:ℝ)] * Dex = 1 := by
  have n2 : Real.sqrt 2 ≠ 0 := by positivity
  have n6 : Real.sqrt 6 ≠ 0 := by positivity
  have n3 : Real.sqrt 3 ≠ 0 := by positivity
  rw [Dex, Matrix.diagonal_mul_diagonal, Matrix.diagonal_mul_diagonal]
  ext i j
  fin_cases i <;> fin_cases j <;>
    norm_num [Matrix.diagonal_apply, Matrix.one_apply, Fin.ext_iff, Pi.mul_apply,
      -Matrix.vecCons_const] <;>
    field_simp

theorem Uex_orth : Matrix.transpose Uex * Uex = 1 := by
  rw [Uex, Matrix.transpose_mul]
  rw [show Matrix.transpose Dex = Dex by rw [Dex, Matrix.diagonal_transpose]]
  simp only [Matrix.mul_assoc]
  rw [← Matrix.mul_assoc (Matrix.transpose Wex) Wex, WtW_diag, ← Matrix.mul_assoc]
  exact DdD_one

theorem Vex_orth : Matrix.transpose Vex * Vex = 1 := by
  rw [Vex, Matrix.transpose_mul]
  simp only [Matrix.mul_assoc]
  rw [← Matrix.mul_assoc (Matrix.transpose Rz90) Rz90, RzT_Rz, Matrix.one_mul]
  exact Uex_orth

theorem DsD_diag : Dex * Matrix.diagonal ![1, 1, (1:ℝ)/4] * Dex
    = Matrix.diagonal ![1/2, 1/6, (1:ℝ)/12] := by
  have n2 : Real.sqrt 2 ≠ 0 := by positivity
  have n6 : Real.sqrt 6 ≠ 0 := by positivity
  have n3 : Real.sqrt 3 ≠ 0 := by positivity
  rw [Dex, Matrix.diagonal_mul_diagonal, Matrix.diagonal_mul_diagonal]
  ext i j
  fin_cases i <;> fin_cases j <;>
    norm_num [Matrix.diagonal_apply, Fin.ext_iff, Pi.mul_apply,
      -Matrix.vecCons_const] <;>
    (field_simp
     try linear_combination (-4 : ℝ) * Real.mul_self_sqrt (show (0:ℝ) ≤ 3 by norm_num))

theorem WsWtRz_covEx : Wex * Matrix.diagonal ![1/2, 1/6, (1:ℝ)/12]
    * (Matrix.transpose Wex * Matrix.transpose Rz90) = covEx := by
  ext i j
  rw [Matrix.mul_apply]
  simp only [Matrix.mul_apply, Matrix.transpose_apply, Fin.sum_univ_three]
  fin_cases i <;> fin_cases j <;>
    norm_num [Wex, Rz90, covEx, Matrix.diagonal_apply, Fin.ext_iff, -Matrix.vecCons_const]

theorem svdEx_fact : covEx = Uex * Matrix.diagonal ![1, 1, (1:ℝ)/4] * Matrix.transpose Vex := by
  have h1 : Uex * Matrix.diagonal ![1, 1, (1:ℝ)/4] * Matrix.transpose Vex
      = Wex * (Dex * Matrix.diagonal ![1, 1, (1:ℝ)/4] * Dex)
        * (Matrix.transpose Wex * Matrix.transpose Rz90) := by
    rw [Vex, Uex, Matrix.transpose_mul, Matrix.transpose_mul,
      show Matrix.transpose Dex = Dex by rw [Dex, Matrix.diagonal_transpose]]
    noncomm_ring
  rw [h1, DsD_diag, WsWtRz_covEx]

set_option maxHeartbeats 1000000 in
/-- Claim C2: the similarity solver first throws on a column-count
mismatch; returns the identity transform when either consecutive-distance
sum is non-positive; and otherwise divides out by the distance-ratio
scale, subtracts centroids, takes the SVD of the covariance, forms
R = V diag(1,1,sign det(V Uᵀ)) Uᵀ and returns linear part s R with
translation s (c_out − R c_in).  On the example — the four input points
rotated 90 degrees about z, scaled by 2 and translated by (5,0,0) — it
returns exactly s R = 2 Rz90 and t = (5,0,0) for every valid SVD of
the example covariance (U, V orthogonal with covEx = U diag(1,1,1/4) Vᵀ,
the singular values of covEx being 1, 1, 1/4), and the residual is
exactly zero, hence below 1e-10. -/
theorem find3DAffineTransform_spec (svd : M3 → M3 × M3)
    (hU : Matrix.transpose (svd covEx).1 * (svd covEx).1 = 1)
    (hV : Matrix.transpose (svd covEx).2 * (svd covEx).2 = 1)
    (hfact : covEx = (svd covEx).1 * Matrix.diagonal ![1, 1, (1:ℝ)/4]
      * Matrix.transpose (svd covEx).2) :
    (∀ ins outs : List V3, ins.length ≠ outs.length →
        find3DAffineTransform svd ins outs
          = Except.error "Find3DAffineTransform(): input data mis-match")
    ∧ (∀ ins outs : List V3, ins.length = outs.length →
        consecDists ins ≤ 0 ∨ consecDists outs ≤ 0 →
        find3DAffineTransform svd ins outs = Except.ok affId)
    ∧ find3DAffineTransform svd inEx outEx = Except.ok ⟨(2:ℝ) • Rz90, ![5, 0, 0]⟩
    ∧ (∀ pq ∈ inEx.zip outEx, affApply ⟨(2:ℝ) • Rz90, ![5, 0, 0]⟩ pq.1 = pq.2) := by
  have hVU : (svd covEx).2 * Matrix.transpose (svd covEx).1 = Rz90 :=
    kabschSvdRot (svd covEx).1 (svd covEx).2 hU hV hfact
  refine ⟨?_, ?_, ?_, ?_⟩
  · intro ins outs h
    rw [find3DAffineTransform, if_pos h]
  · intro ins outs hlen hd
    rw [find3DAffineTransform, if_neg (not_not_intro hlen), if_pos hd]
  · have hpos_in : 0 < consecDists inEx := by
      rw [consecDists_inEx]; positivity
    have hpos_out : 0 < consecDists outEx := by
      rw [consecDists_outEx]; positivity
    have hlen : ¬ (inEx.length ≠ outEx.length) := by norm_num [inEx, outEx]
    have hnd : ¬ (consecDists inEx ≤ 0 ∨ consecDists outEx ≤ 0) := by
      push_neg
      exact ⟨hpos_in, hpos_out⟩
    have h8 : Real.sqrt 8 = 2 * Real.sqrt 2 := by
      rw [show (8:ℝ) = 2 ^ 2 * 2 by norm_num,
        Real.sqrt_mul (by positivity), Real.sqrt_sq (by norm_num : (0:ℝ) ≤ 2)]
    have hscale : consecDists outEx / consecDists inEx = 2 := by
      rw [consecDists_inEx, consecDists_outEx, h8, div_eq_iff (by rw [← consecDists_inEx]; positivity)]
      ring
    rw [find3DAffineTransform, if_neg hlen, if_neg hnd, hscale]
    have hrot : kabschRot svd (kabschCov inEx outEx 2) = Rz90 := by
      rw [kabschCov_ex]
      have hdet : (0:ℝ) < ((svd covEx).2 * Matrix.transpose (svd covEx).1).det := by
        rw [hVU, detRz90]; norm_num
      rw [kabschRot, if_pos hdet, diagOneThree, Matrix.mul_one, hVU]
    rw [kabschSim, hrot, centroid_outEx, centroid_inEx]
    refine congrArg Except.ok ?_
    refine congrArg (Affine3.mk ((2:ℝ) • Rz90)) ?_
    funext i
    fin_cases i <;>
      norm_num [Rz90, Matrix.mulVec, Matrix.dotProduct, Fin.sum_univ_three,
        -Matrix.vecCons_const]
  · intro pq hpq
    have hm : pq = (![0,0,0], ![5,0,0]) ∨ pq = (![1,0,0], ![5,2,0])
        ∨ pq = (![0,1,0], ![3,0,0]) ∨ pq = (![0,0,1], ![5,0,2]) := by
      simpa [inEx, outEx] using hpq
    rcases hm with h | h | h | h <;> subst h <;>
      (funext i
       fin_cases i <;>
         norm_num [affApply, Rz90, Matrix.mulVec, Matrix.dotProduct, Fin.sum_univ_three,
           -Matrix.vecCons_const])

/-- Witness for C2: a concrete SVD oracle built from an explicit
orthogonal eigenbasis of the example covariance discharges the
hypotheses, and the solver output is evaluated on it. -/
theorem find3DAffineTransform_spec_witness :
    find3DAffineTransform svdEx inEx outEx = Except.ok ⟨(2:ℝ) • Rz90, ![5, 0, 0]⟩
      ∧ (∀ pq ∈ inEx.zip outEx, affApply ⟨(2:ℝ) • Rz90, ![5, 0, 0]⟩ pq.1 = pq.2) :=
  ⟨(find3DAffineTransform_spec svdEx Uex_orth Vex_orth svdEx_fact).2.2.1,
   (find3DAffineTransform_spec svdEx Uex_orth Vex_orth svdEx_fact).2.2.2⟩

end RigCal
